import Mathlib

/-!
Verification of the Saskatchewan railway pipeline
(scripts/build_railway_network.py, scripts/merge_nrwn_data.py,
scripts/snap_settlements_to_network.py, scripts/calculate_railway_distances.py).

Conventions of the embedding:
* Python floats are modelled as exact rationals (`ℚ`); square roots force the
  geometric distance computations into `ℝ` via `Real.sqrt`.
* Python `round(x, d)` rounds half to even; it is modelled by `pyRound`.
* Python's `float('inf')` sentinel in nearest-element searches is modelled by
  folding with an `Option` accumulator (`none` = nothing found yet), which is
  equivalent for the finite distances that actually occur.
* The graph library calls (`networkx`) are modelled by their contracts; in
  particular the Dijkstra shortest-path call is modelled by an executable
  minimum over an exhaustive path enumeration (`dijkstraPath`).
-/

/-- Python's banker's rounding of a real/rational number to the nearest
integer, halves going to the even neighbour (`round(s)` in Python). -/
def bankersRound {α : Type} [LinearOrderedField α] [FloorRing α] (s : α) : ℤ :=
  if s - ⌊s⌋ < 1/2 then ⌊s⌋
  else if (1:α)/2 < s - ⌊s⌋ then ⌊s⌋ + 1
  else if Even ⌊s⌋ then ⌊s⌋ else ⌊s⌋ + 1

/-- Python's `round(x, d)`: banker's rounding to `d` decimal places. -/
def pyRound {α : Type} [LinearOrderedField α] [FloorRing α] (d : ℕ) (x : α) : α :=
  (bankersRound (x * 10 ^ d) : α) / 10 ^ d

/-!  ## Router graph model (calculate_railway_distances.py)

The network file's edge records carry `source`, `target` and the Dijkstra
weight `length_m`; `load_network_graph` installs `length_m` as the weight.
-/

/-- One edge of the routing graph: endpoints and the `length_m` weight that
`load_network_graph` installs as the Dijkstra weight. -/
structure REdge where
  source : String
  target : String
  weight : ℚ
deriving DecidableEq

/-- Undirected weight lookup, `G[u][v]['weight']`: the weight of the first
listed edge joining `u` and `v` (in either orientation), if any. -/
def wlookup (es : List REdge) (u v : String) : Option ℚ :=
  (es.find? fun e => (e.source == u && e.target == v) || (e.source == v && e.target == u)).map
    (fun e => e.weight)

/-- `wstep es u v` holds when the graph has an edge between `u` and `v`. -/
def wstep (es : List REdge) (u v : String) : Bool :=
  (wlookup es u v).isSome

/-- Total weight of a node sequence: the sum of the edge weights between
consecutive nodes (this is the sum computed by `calculate_railway_distance`
over `G[path[i]][path[i+1]]['weight']`). -/
def walkW (es : List REdge) : List String → ℚ
  | u :: v :: rest => (wlookup es u v).getD 0 + walkW es (v :: rest)
  | _ => 0

/-- A walk in the graph: a nonempty node sequence whose consecutive nodes are
joined by edges. -/
def isWalk (es : List REdge) (p : List String) : Prop :=
  p ≠ [] ∧ p.Chain' (fun u v => wstep es u v = true)

/-- The neighbours of `a`: the other endpoint of every listed edge incident
to `a`. -/
def nbrs (es : List REdge) (a : String) : List String :=
  es.filterMap fun e =>
    if e.source == a then some e.target
    else if e.target == a then some e.source
    else none

/-- All paths from `a` to `b` whose nodes after the start are drawn (without
repetition) from `avail`; `fuel` bounds the recursion depth and is kept equal
to `avail.length` at the top-level call.  Together with `dijkstraPath` below
this models the contract of the library's Dijkstra routine: it returns a
minimum-weight path. -/
def pathsAux (es : List REdge) : ℕ → List String → String → String → List (List String)
  | 0, _, a, b => if a = b then [[a]] else []
  | fuel + 1, avail, a, b =>
    if a = b then [[a]]
    else
      ((nbrs es a).filter (fun n => decide (n ∈ avail))).flatMap
        (fun n => (pathsAux es fuel (avail.erase n) n b).map (fun q => a :: q))

/-- The node list of the graph (with multiplicity; harmless for enumeration). -/
def graphNodes (es : List REdge) : List String :=
  es.flatMap fun e => [e.source, e.target]

/-- All candidate paths from `a` to `b`. -/
def allPaths (es : List REdge) (a b : String) : List (List String) :=
  pathsAux es ((graphNodes es).erase a).length ((graphNodes es).erase a) a b

/-- Model of `nx.dijkstra_path(G, a, b, weight='weight')`: a minimum-weight
path from `a` to `b`, or `none` when no path exists (the `NetworkXNoPath`
case). -/
def dijkstraPath (es : List REdge) (a b : String) : Option (List String) :=
  (allPaths es a b).argmin (walkW es)

/-- `calculate_railway_distance`: Dijkstra path, then the summed weight along
the path divided by 1000; `(None, None)` when no path exists. -/
def calculate_railway_distance (es : List REdge) (a b : String) :
    Option (ℚ × List String) :=
  (dijkstraPath es a b).map fun p => (walkW es p / 1000, p)


/-- A settlement's snap record as read by `load_settlement_mappings`:
primary node, snap node list, snap type and the same-edge data. -/
structure RMapping where
  node : String
  nodes : List String
  snap_type : String
  edge_t : Option ℚ
  edge_length_km : Option ℚ
deriving DecidableEq

/-- `are_on_same_edge`: both snaps are of type edge and the two `snap_nodes`
lists are equal as sets (`set(nodes1) == set(nodes2)`). -/
def are_on_same_edge (m1 m2 : RMapping) : Bool :=
  if m1.snap_type != "edge" || m2.snap_type != "edge" then false
  else decide (∀ x ∈ m1.nodes, x ∈ m2.nodes) && decide (∀ x ∈ m2.nodes, x ∈ m1.nodes)

/-- `calculate_same_edge_distance`: `abs(t2 - t1) * edge_length`, where the
edge length is taken from the first mapping; `None` when any input is
missing. -/
def calculate_same_edge_distance (m1 m2 : RMapping) : Option ℚ :=
  match m1.edge_t, m2.edge_t, m1.edge_length_km with
  | some t1, some t2, some el => some (|t2 - t1| * el)
  | _, _, _ => none

/-- The per-pair branch of the router's `main` loop: same-edge distance when
both snaps share an edge (and it computes), `0` for a shared primary node,
otherwise the Dijkstra distance (`none` = no path, recorded as null).
`main` stores `round(rail_dist, 1)` of this value, see
`recordedPairDistance`. -/
def routerPairDistance (es : List REdge) (m1 m2 : RMapping) : Option ℚ :=
  match (if are_on_same_edge m1 m2 then calculate_same_edge_distance m1 m2 else none) with
  | some r => some r
  | none =>
    if m1.node = m2.node then some 0
    else (calculate_railway_distance es m1.node m2.node).map (fun dp => dp.1)

/-- The value `main` stores into `pair_distances` (rounded to one decimal;
the shared-node branch stores `0.0 = round(0, 1)` directly). -/
def recordedPairDistance (es : List REdge) (m1 m2 : RMapping) : Option ℚ :=
  (routerPairDistance es m1 m2).map (pyRound 1)

/-- `tuple(sorted([settlement, other]))`: the canonical unordered pair key. -/
def sortPair (s t : String) : String × String :=
  if s ≤ t then (s, t) else (t, s)

/-- One record of a settlement's connection list.  `railway` models the
`railway_distance_km` key: `none` = key absent, `some none` = null,
`some (some v)` = value `v`. -/
structure Conn where
  dest : String
  distance_km : ℚ
  railway : Option (Option ℚ)
deriving DecidableEq

/-- The final loop of the router's `main`: for one connection record, set
`railway_distance_km` to the pair's computed distance when the sorted pair
key was processed, and leave the record unchanged otherwise. -/
def applyPairDistance (pd : List ((String × String) × Option ℚ)) (s : String)
    (c : Conn) : Conn :=
  match pd.lookup (sortPair s c.dest) with
  | some v => { c with railway := some v }
  | none => c

/-- The final loop of `main` over the whole connections table. -/
def applyRailwayDistances (pd : List ((String × String) × Option ℚ))
    (conns : List (String × List Conn)) : List (String × List Conn) :=
  conns.map fun sc => (sc.1, sc.2.map (applyPairDistance pd sc.1))


/-!  ## Snapper model (snap_settlements_to_network.py)

Geometry runs in the projected frame over `ℝ`; `Real.sqrt` models `** 0.5`.
The `float('inf')` initial best in the nearest-element scans is modelled by
an `Option` accumulator.
-/

/-- A network node as indexed by `build_node_index` (projected coords). -/
structure SnapNode where
  id : String
  x : ℝ
  y : ℝ

/-- A network edge as read by `find_nearest_edge_point`. -/
structure SnapEdge where
  source : String
  target : String
  length_km : ℝ

/-- `point_to_segment_distance_with_t`: distance from `(px, py)` to the
segment `(x1,y1)-(x2,y2)` and the clamped parameter `t ∈ [0,1]`; a degenerate
segment returns the distance to the point and `t = 0`. -/
noncomputable def point_to_segment_distance_with_t
    (px py x1 y1 x2 y2 : ℝ) : ℝ × ℝ :=
  let dx := x2 - x1
  let dy := y2 - y1
  if dx = 0 ∧ dy = 0 then
    (Real.sqrt ((px - x1) ^ 2 + (py - y1) ^ 2), 0)
  else
    let t := max 0 (min 1 (((px - x1) * dx + (py - y1) * dy) / (dx * dx + dy * dy)))
    let nearx := x1 + t * dx
    let neary := y1 + t * dy
    (Real.sqrt ((px - nearx) ^ 2 + (py - neary) ^ 2), t)

/-- `find_nearest_node`: linear scan keeping the strictly closer node
(`dist < min_dist`); `none` when the node list is empty (Python returns
`(None, inf)`). -/
noncomputable def find_nearest_node (x y : ℝ) (nodes : List SnapNode) :
    Option (String × ℝ) :=
  nodes.foldl
    (fun best n =>
      let dist := Real.sqrt ((n.x - x) ^ 2 + (n.y - y) ^ 2)
      match best with
      | none => some (n.id, dist)
      | some (bid, bdist) =>
        if dist < bdist then some (n.id, dist) else some (bid, bdist))
    none

/-- `find_nearest_edge_point`: linear scan over edges with
`point_to_segment_distance_with_t` against the flattened segment between the
two node positions; returns `(edge_endpoints, distance, t, edge_length_km)`.
An edge whose endpoint id is missing from the index is skipped (the source
would raise `KeyError`; this cannot happen for the generated artifacts). -/
noncomputable def find_nearest_edge_point (x y : ℝ) (edges : List SnapEdge)
    (nodes : List SnapNode) : Option ((String × String) × ℝ × ℝ × ℝ) :=
  edges.foldl
    (fun best e =>
      match nodes.find? (fun n => n.id == e.source),
            nodes.find? (fun n => n.id == e.target) with
      | some s, some tg =>
        let dt := point_to_segment_distance_with_t x y s.x s.y tg.x tg.y
        match best with
        | none => some ((e.source, e.target), dt.1, dt.2, e.length_km)
        | some (be, bdist, bt, bl) =>
          if dt.1 < bdist then some ((e.source, e.target), dt.1, dt.2, e.length_km)
          else some (be, bdist, bt, bl)
      | _, _ => best)
    none

/-- The fields of one snap record relevant to selection (`main`,
snap_settlements_to_network.py lines 181-225).  `snap_distance` is the
unrounded selected distance; the serialized record stores
`round(snap_distance, 1)` metres. -/
structure SnapResult where
  snap_type : String
  snap_nodes : List String
  snap_edge_t : Option ℝ
  snap_edge_length_km : Option ℝ
  snap_distance : ℝ

/-- The per-settlement selection of `main`: edge snap when
`edge_dist < node_dist`, node snap otherwise (including exact ties); the
stored `snap_edge_t` is `round(edge_t, 4)`.  `none` only when the node scan
found nothing (the source would crash on its empty-network inputs). -/
noncomputable def snapSettlement (x y : ℝ) (nodes : List SnapNode)
    (edges : List SnapEdge) : Option SnapResult :=
  match find_nearest_node x y nodes, find_nearest_edge_point x y edges nodes with
  | some (nid, ndist), some (ne, edist, et, elen) =>
    if edist < ndist then
      some ⟨"edge", [ne.1, ne.2], some (pyRound 4 et), some elen, edist⟩
    else
      some ⟨"node", [nid], none, none, ndist⟩
  | some (nid, ndist), none => some ⟨"node", [nid], none, none, ndist⟩
  | none, _ => none


/-!  ## Network builder model (build_railway_network.py)

The shapefile reader and the projection are external collaborators: the
inverse projection is a parameter `inv : ℚ × ℚ → ℚ × ℚ` mapping projected
`(x, y)` to `(lon, lat)`.  Projected coordinates and attribute values are
exact rationals; polyline lengths (sums of square roots) live in `ℝ`.
-/

/-- Euclidean distance between two projected points
(`(dx*dx + dy*dy) ** 0.5`). -/
noncomputable def distR (p q : ℚ × ℚ) : ℝ :=
  Real.sqrt (((p.1 - q.1 : ℚ) : ℝ) ^ 2 + ((p.2 - q.2 : ℚ) : ℝ) ^ 2)

/-- Python truthiness chain `a or b` for numbers (`0` is falsy). -/
def pyOr (a b : ℚ) : ℚ :=
  if a ≠ 0 then a else b

/-- The shapefile record attributes the builder reads. -/
structure BRecord where
  length : ℚ
  shapeLeng : ℚ
  cnstrctd : ℤ
  abndnd : ℤ
  bldrCode : String

/-- One shapefile shape: bounding box (absent for null shapes) and the
projected polyline. -/
structure BShape where
  bbox : Option (ℚ × ℚ × ℚ × ℚ)
  points : List (ℚ × ℚ)

/-- `is_in_saskatchewan`: inverse-project the bbox corners and intersect
with the configured lat/lon rectangle. -/
def is_in_saskatchewan (inv : ℚ × ℚ → ℚ × ℚ) (bbox : Option (ℚ × ℚ × ℚ × ℚ)) :
    Bool :=
  match bbox with
  | none => false
  | some (x0, y0, x1, y1) =>
    let sw := inv (x0, y0)
    let ne := inv (x1, y1)
    decide (sw.1 < -101 ∧ ne.1 > -110 ∧ sw.2 < 60 ∧ ne.2 > 49)

/-- `round_point`: snap a vertex to the 10 m junction-detection grid
(`round(x / 10) * 10`, Python banker's rounding). -/
def round_point (x y : ℚ) : ℚ × ℚ :=
  ((bankersRound (x / 10) : ℚ) * 10, (bankersRound (y / 10) : ℚ) * 10)

/-- Bump a counter in an insertion-ordered association list
(`point_counts[k] = point_counts.get(k, 0) + 1`). -/
def bumpCount (m : List ((ℚ × ℚ) × ℕ)) (k : ℚ × ℚ) : List ((ℚ × ℚ) × ℕ) :=
  if (m.lookup k).isSome then
    m.map (fun kv => if kv.1 = k then (kv.1, kv.2 + 1) else kv)
  else m ++ [(k, 1)]

/-- Record the first original vertex seen for a grid cell
(`if rounded not in point_to_original`). -/
def insertFirst (m : List ((ℚ × ℚ) × (ℚ × ℚ))) (k v : ℚ × ℚ) :
    List ((ℚ × ℚ) × (ℚ × ℚ)) :=
  if (m.lookup k).isSome then m else m ++ [(k, v)]

/-- `find_junction_points`: count every vertex occurrence of every accepted
shape per 10 m grid cell; a cell with count `> 1` is a junction, represented
by the first original vertex that mapped into it.  (The Python set of
junctions is modelled as a list; downstream only membership matters.) -/
def find_junction_points (inv : ℚ × ℚ → ℚ × ℚ)
    (recs : List (BShape × BRecord)) : List (ℚ × ℚ) :=
  let st := recs.foldl
    (fun (st : List ((ℚ × ℚ) × ℕ) × List ((ℚ × ℚ) × (ℚ × ℚ))) sr =>
      if sr.1.bbox = none then st
      else if ¬ is_in_saskatchewan inv sr.1.bbox then st
      else
        sr.1.points.foldl
          (fun st2 pt =>
            let rounded := round_point pt.1 pt.2
            (bumpCount st2.1 rounded, insertFirst st2.2 rounded pt))
          st)
    ([], [])
  (st.1.filter (fun kc => kc.2 > 1)).filterMap (fun kc => st.2.lookup kc.1)

/-- `calculate_polyline_length`: summed Euclidean length of consecutive
point pairs. -/
noncomputable def calculate_polyline_length : List (ℚ × ℚ) → ℝ
  | p1 :: p2 :: rest => distR p1 p2 + calculate_polyline_length (p2 :: rest)
  | _ => 0

/-- `is_junction_point`: the first junction point strictly within
`tolerance` metres of `pt`, if any. -/
noncomputable def is_junction_point (pt : ℚ × ℚ) (junctions : List (ℚ × ℚ))
    (tol : ℝ) : Option (ℚ × ℚ) :=
  junctions.find? (fun j => decide (distR pt j < tol))

/-- Loop body of `split_track_at_junctions`: `current` is the sub-polyline
built so far; an interior vertex near a junction ends the current segment
(inclusive) and starts the next one at that vertex. -/
noncomputable def splitAux (junctions : List (ℚ × ℚ)) (tol : ℝ) :
    List (ℚ × ℚ) → List (ℚ × ℚ) → List (List (ℚ × ℚ) × ℝ)
  | current, [] =>
    if current.length ≥ 2 then [(current, calculate_polyline_length current)]
    else []
  | current, p :: rest =>
    let cur := current ++ [p]
    if rest ≠ [] ∧ (is_junction_point p junctions tol).isSome then
      (cur, calculate_polyline_length cur) :: splitAux junctions tol [p] rest
    else
      match rest with
      | [] =>
        if cur.length ≥ 2 then [(cur, calculate_polyline_length cur)] else []
      | _ => splitAux junctions tol cur rest

/-- `split_track_at_junctions`: split a polyline at interior junction
vertices; endpoints always terminate segments. -/
noncomputable def split_track_at_junctions (points : List (ℚ × ℚ))
    (junctions : List (ℚ × ℚ)) (tol : ℝ) : List (List (ℚ × ℚ) × ℝ) :=
  match points with
  | [] => []
  | [_] => []
  | p0 :: rest => splitAux junctions tol [p0] rest

/-- A builder graph node (insertion order = creation order). -/
structure BNode where
  id : String
  x : ℚ
  y : ℚ

/-- The first existing node lying strictly within `tol` of `(x, y)`, in
node insertion order (the loop over `graph.nodes` in
`find_or_create_node`). -/
noncomputable def findNearNode (x y : ℚ) (tol : ℝ) :
    List BNode → Option BNode
  | [] => none
  | n :: rest =>
    if distR (n.x, n.y) (x, y) < tol then some n else findNearNode x y tol rest

/-- `find_or_create_node`: reuse the first node within the snap tolerance
(500 m), otherwise create node `n<node_index>` at the exact coordinates. -/
noncomputable def find_or_create_node (nodes : List BNode) (x y : ℚ)
    (node_index : ℕ) : (String × ℕ) × List BNode :=
  match findNearNode x y 500 nodes with
  | some n => ((n.id, node_index), nodes)
  | none =>
    let nid := "n" ++ toString node_index
    ((nid, node_index + 1), nodes ++ [⟨nid, x, y⟩])

/-- The attribute record attached to a builder edge. -/
structure BEdgeData where
  length_m : ℝ
  built_year : ℤ
  abandoned_year : ℤ
  builder_code : String
  builder_name : String
  points : List (ℚ × ℚ)

/-- An undirected builder edge in its stored orientation. -/
structure BEdge where
  u : String
  v : String
  data : BEdgeData

/-- The edge-insertion step of `load_railway_tracks` (lines 296-312): if an
edge between the endpoints exists, replace its attributes only when the new
segment is strictly shorter; otherwise append a new edge. -/
noncomputable def addSegmentEdge : List BEdge → String → String → BEdgeData → List BEdge
  | [], u, v, d => [⟨u, v, d⟩]
  | e :: rest, u, v, d =>
    if (e.u = u ∧ e.v = v) ∨ (e.u = v ∧ e.v = u) then
      if d.length_m < e.data.length_m then ⟨e.u, e.v, d⟩ :: rest else e :: rest
    else e :: addSegmentEdge rest u v d

/-- The operator alias table (`builder_names`). -/
def builder_names : List (String × String) :=
  [("1", "CPR"), ("2", "CNR"), ("5", "CNoR"), ("49", "GTP"),
   ("49A", "GTP Branch"), ("49B", "GTP Sask"), ("53R", "CNoR Sask")]

/-- Bump a `(count, length)` cell of a defaultdict-style stats table. -/
def bumpStat {κ : Type} [DecidableEq κ] (m : List (κ × ℕ × ℚ)) (k : κ)
    (len : ℚ) : List (κ × ℕ × ℚ) :=
  match m.lookup k with
  | some cl => m.map (fun kv => if kv.1 = k then (k, cl.1 + 1, cl.2 + len) else kv)
  | none => m ++ [(k, 1, len)]

/-- The builder's running statistics. -/
structure BStats where
  total_segments : ℕ
  sk_segments : ℕ
  total_length_m : ℚ
  by_builder : List (String × ℕ × ℚ)
  by_decade : List (ℤ × ℕ × ℚ)

/-- The per-shape body of the second pass of `load_railway_tracks`:
filtering, statistics, junction splitting, node resolution and edge
insertion. -/
noncomputable def loadTracksStep (inv : ℚ × ℚ → ℚ × ℚ)
    (junctions : List (ℚ × ℚ))
    (st : (List BNode × List BEdge × ℕ) × BStats) (sr : BShape × BRecord) :
    (List BNode × List BEdge × ℕ) × BStats :=
  let stats := { st.2 with total_segments := st.2.total_segments + 1 }
  if sr.1.bbox = none then (st.1, stats)
  else if ¬ is_in_saskatchewan inv sr.1.bbox then (st.1, stats)
  else
    let original_length := pyOr sr.2.length (pyOr sr.2.shapeLeng 0)
    let built_year := sr.2.cnstrctd
    let abandoned_year := sr.2.abndnd
    let code := sr.2.bldrCode
    let stats :=
      { stats with
        sk_segments := stats.sk_segments + 1
        total_length_m := stats.total_length_m + original_length
        by_builder := bumpStat stats.by_builder code original_length
        by_decade :=
          if built_year ≠ 0 then
            bumpStat stats.by_decade (Int.fdiv built_year 10 * 10) original_length
          else stats.by_decade }
    let points := sr.1.points
    if points.length < 2 then (st.1, stats)
    else
      let segments0 := split_track_at_junctions points junctions 500
      let segments :=
        if segments0 = [] then [(points, calculate_polyline_length points)]
        else segments0
      let g := segments.foldl
        (fun (g : List BNode × List BEdge × ℕ) seg =>
          if seg.1.length < 2 then g
          else
            match seg.1.head?, seg.1.getLast? with
            | some start_pt, some end_pt =>
              let r1 := find_or_create_node g.1 start_pt.1 start_pt.2 g.2.2
              let r2 := find_or_create_node r1.2 end_pt.1 end_pt.2 r1.1.2
              let start_node := r1.1.1
              let end_node := r2.1.1
              if start_node = end_node then (r2.2, g.2.1, r2.1.2)
              else
                (r2.2,
                 addSegmentEdge g.2.1 start_node end_node
                   ⟨seg.2, built_year, abandoned_year, code,
                    ((builder_names.lookup code).getD code), seg.1⟩,
                 r2.1.2)
            | _, _ => g)
        st.1
      (g, stats)

/-- `load_railway_tracks` from the shape/record sequence: pass 1 junction
detection, then the pass-2 fold. -/
noncomputable def load_railway_tracks (inv : ℚ × ℚ → ℚ × ℚ)
    (recs : List (BShape × BRecord)) :
    (List BNode × List BEdge × ℕ) × BStats :=
  let junctions := find_junction_points inv recs
  recs.foldl (loadTracksStep inv junctions) (([], [], 0), ⟨0, 0, 0, [], []⟩)

/-- A serialized node of `railway_network.json`. -/
structure NodeOut where
  id : String
  x : ℚ
  y : ℚ
  lat : ℚ
  lon : ℚ

/-- A serialized edge of `railway_network.json` (geometry dropped). -/
structure EdgeOut where
  source : String
  target : String
  length_m : ℝ
  length_km : ℝ
  built_year : ℤ
  abandoned_year : ℤ
  builder_code : String
  builder_name : String

/-- The serialized stats block. -/
structure StatsOut where
  sk_segments : ℕ
  total_length_km : ℚ
  node_count : ℕ
  edge_count : ℕ
  by_builder : List (String × ℕ × ℚ)
  by_decade : List (String × ℕ × ℚ)

/-- The persisted `railway_network.json` content (the fixed metadata block
is omitted: it is a constant). -/
structure NetworkOut where
  stats : StatsOut
  nodes : List NodeOut
  edges : List EdgeOut

/-- `export_network`: rounding and ordering of the persisted artifact. -/
noncomputable def export_network (inv : ℚ × ℚ → ℚ × ℚ)
    (g : (List BNode × List BEdge × ℕ) × BStats) : NetworkOut :=
  let nodes := g.1.1.map (fun n =>
    let ll := inv (n.x, n.y)
    NodeOut.mk n.id n.x n.y (pyRound 6 ll.2) (pyRound 6 ll.1))
  let edges := g.1.2.1.map (fun e =>
    EdgeOut.mk e.u e.v (pyRound 1 e.data.length_m)
      (pyRound 2 (e.data.length_m / 1000)) e.data.built_year
      e.data.abandoned_year e.data.builder_code e.data.builder_name)
  { stats :=
      { sk_segments := g.2.sk_segments
        total_length_km := pyRound 1 (g.2.total_length_m / 1000)
        node_count := nodes.length
        edge_count := edges.length
        by_builder :=
          (g.2.by_builder.mergeSort (fun a b => a.1 ≤ b.1)).map
            (fun kv => (kv.1, kv.2.1, pyRound 1 (kv.2.2 / 1000)))
        by_decade :=
          (g.2.by_decade.mergeSort (fun a b => decide (a.1 ≤ b.1))).map
            (fun kv => (toString kv.1, kv.2.1, pyRound 1 (kv.2.2 / 1000))) }
    nodes := nodes
    edges := edges }

/-- The builder stage as one function from the input shape sequence to the
persisted artifact. -/
noncomputable def buildRailwayNetwork (inv : ℚ × ℚ → ℚ × ℚ)
    (recs : List (BShape × BRecord)) : NetworkOut :=
  export_network inv (load_railway_tracks inv recs)


/-!  ## Merger model (merge_nrwn_data.py)

The NRWN input arrives as lon/lat tracks; all distances go through
`haversine_distance`, an opaque trigonometric routine modelled as a
parameter `hav : ℚ → ℚ → ℚ → ℚ → ℚ` (`hav lon1 lat1 lon2 lat2` in metres).
The pipeline is modelled from the chain-merged track list onward (`main`
after `merge_consecutive_segments`); GML parsing is an external collaborator.
-/

/-- A node of the persisted network file, as the merger reads and writes
it. -/
structure MNode where
  id : String
  lat : ℚ
  lon : ℚ
  x : ℚ
  y : ℚ
deriving DecidableEq

/-- An edge of the persisted network file. -/
structure MEdge where
  source : String
  target : String
  length_m : ℚ
  length_km : ℚ
  built_year : ℤ
  abandoned_year : ℤ
  builder_code : String
  builder_name : String
deriving DecidableEq

/-- A track geometry record of the persisted tracks file. -/
structure MTrack where
  source : String
  target : String
  coordinates : List (ℚ × ℚ)
  built_year : ℤ
  abandoned_year : ℤ
  builder_name : String
  length_km : ℚ
deriving DecidableEq

/-- One chain-merged NRWN track (`operator`, `subdivision`,
`classification`, lon/lat coordinates). -/
structure NrwnTrack where
  operator : String
  subdivision : String
  classification : String
  coordinates : List (ℚ × ℚ)
deriving DecidableEq

/-- The stats block of the network file touched by the merger. -/
structure MStats where
  node_count : ℕ
  edge_count : ℕ
  by_builder : List (String × ℕ × ℚ)
deriving DecidableEq

/-- The network artifact as the merger sees it. -/
structure MNetwork where
  metadata_source : String
  nodes : List MNode
  edges : List MEdge
  stats : MStats
deriving DecidableEq

/-- The tracks artifact as the merger sees it. -/
structure MTracksData where
  metadata_source : String
  track_count : ℕ
  tracks : List MTrack
deriving DecidableEq

/-- Dict-style insert-or-overwrite on an insertion-ordered association
list. -/
def assocSet {κ ρ : Type} [DecidableEq κ] (m : List (κ × ρ)) (k : κ) (v : ρ) :
    List (κ × ρ) :=
  if (m.lookup k).isSome then
    m.map (fun kv => if kv.1 = k then (k, v) else kv)
  else m ++ [(k, v)]

/-- `find_junction_node`: the first existing node strictly within the
junction tolerance (500 m great-circle), with its distance. -/
def find_junction_node (hav : ℚ → ℚ → ℚ → ℚ → ℚ) (lon lat : ℚ)
    (existing : List MNode) : Option (String × ℚ) :=
  (existing.find? (fun n => decide (hav lon lat n.lon n.lat < 500))).map
    (fun n => (n.id, hav lon lat n.lon n.lat))

/-- Summed haversine length of consecutive coordinate pairs, in metres. -/
def trackLenAux (hav : ℚ → ℚ → ℚ → ℚ → ℚ) : List (ℚ × ℚ) → ℚ
  | c1 :: c2 :: rest => hav c1.1 c1.2 c2.1 c2.2 + trackLenAux hav (c2 :: rest)
  | _ => 0

/-- `calculate_track_length`: total track length in km. -/
def calculate_track_length (hav : ℚ → ℚ → ℚ → ℚ → ℚ)
    (coords : List (ℚ × ℚ)) : ℚ :=
  trackLenAux hav coords / 1000

/-- The mutable state of `integrate_nrwn_tracks`: the coordinate→node map,
the next node number, and the accumulated new nodes/edges/tracks. -/
structure IntState where
  coordMap : List ((ℚ × ℚ) × String)
  nextNum : ℕ
  newNodes : List MNode
  newEdges : List MEdge
  newTracks : List MTrack

/-- Resolve a chain endpoint to a node id: the 5-decimal coordinate map
first, then a junction with the existing network, else a fresh node (with
`x = y = 0`, as in the source). -/
def resolveEndpoint (hav : ℚ → ℚ → ℚ → ℚ → ℚ) (existingNodes : List MNode)
    (st : IntState) (lon lat : ℚ) : String × IntState :=
  let key := (pyRound 5 lon, pyRound 5 lat)
  match st.coordMap.lookup key with
  | some id => (id, st)
  | none =>
    match find_junction_node hav lon lat existingNodes with
    | some jd => (jd.1, st)
    | none =>
      let id := "n" ++ toString st.nextNum
      (id,
       { st with
         newNodes := st.newNodes ++ [⟨id, lat, lon, 0, 0⟩]
         coordMap := assocSet st.coordMap key id
         nextNum := st.nextNum + 1 })

/-- Two merger edges join the same unordered node pair. -/
def sameEdgePair (e e0 : MEdge) : Prop :=
  (e.source = e0.source ∧ e.target = e0.target) ∨
  (e.source = e0.target ∧ e.target = e0.source)

/-- The per-track body of `integrate_nrwn_tracks`: endpoint resolution,
self-loop skip, duplicate-pair skip, then edge and track-geometry
creation. -/
def integrateStep (hav : ℚ → ℚ → ℚ → ℚ → ℚ) (existingNodes : List MNode)
    (existingEdges : List MEdge) (st : IntState) (track : NrwnTrack) :
    IntState :=
  match track.coordinates with
  | c0 :: _ :: _ =>
    let clast := (track.coordinates.getLast?).getD c0
    let r1 := resolveEndpoint hav existingNodes st c0.1 c0.2
    let r2 := resolveEndpoint hav existingNodes r1.2 clast.1 clast.2
    let source_id := r1.1
    let target_id := r2.1
    let st := r2.2
    if source_id = target_id then st
    else if (existingEdges ++ st.newEdges).any
        (fun e => (e.source == source_id && e.target == target_id) ||
                  (e.source == target_id && e.target == source_id)) then st
    else
      let length_km := calculate_track_length hav track.coordinates
      let length_m := length_km * 1000
      let bc := if track.operator == "LMR" then ("LMR", "LMR") else ("GWR", "GWR")
      { st with
        newEdges := st.newEdges ++
          [⟨source_id, target_id, pyRound 1 length_m, pyRound 2 length_km,
            0, 0, bc.1, bc.2⟩]
        newTracks := st.newTracks ++
          [⟨source_id, target_id, track.coordinates, 0, 0, bc.2,
            pyRound 2 length_km⟩] }
  | _ => st

/-- The next node number: one past the highest parsable `n<k>` id, but at
least `NEW_NODE_START = 500`. -/
def nextNodeNum (nodes : List MNode) : ℕ :=
  let maxnum := nodes.foldl
    (fun acc n =>
      if n.id.startsWith "n" then
        match (n.id.drop 1).toNat? with
        | some k => max acc k
        | none => acc
      else acc) 0
  max (maxnum + 1) 500

/-- `integrate_nrwn_tracks`: fold the merged NRWN tracks into new
nodes/edges/tracks against the existing network. -/
def integrate_nrwn_tracks (hav : ℚ → ℚ → ℚ → ℚ → ℚ)
    (merged : List NrwnTrack) (network : MNetwork) :
    List MNode × List MEdge × List MTrack :=
  let coord0 := network.nodes.foldl
    (fun m n => assocSet m (pyRound 5 n.lon, pyRound 5 n.lat) n.id) []
  let st0 : IntState := ⟨coord0, nextNodeNum network.nodes, [], [], []⟩
  let st := merged.foldl (integrateStep hav network.nodes network.edges) st0
  (st.newNodes, st.newEdges, st.newTracks)

/-- Union-find `find` without path compression (compression only changes
the parent table, never the root); `fuel` bounds the parent-chain walk and
is passed as the table size, which bounds every chain. -/
def ufFind (parent : List (String × String)) : ℕ → String → String
  | 0, x => x
  | fuel + 1, x =>
    match parent.lookup x with
    | none => x
    | some p => if p = x then x else ufFind parent fuel p

/-- Union-find `union`, inserting unseen keys first (`find` inserts
`parent[x] = x` for unknown `x` in the source). -/
def ufUnion (parent : List (String × String)) (x y : String) :
    List (String × String) :=
  let parent := if (parent.lookup x).isSome then parent else parent ++ [(x, x)]
  let parent := if (parent.lookup y).isSome then parent else parent ++ [(y, y)]
  let px := ufFind parent parent.length x
  let py := ufFind parent parent.length y
  if px ≠ py then assocSet parent px py else parent

/-- `find_connected_components`: union the endpoints of every edge, then
group all seen nodes by their root, in first-seen order. -/
def find_connected_components (edges : List MEdge) : List (List String) :=
  let parent := edges.foldl (fun p e => ufUnion p e.source e.target) []
  let keys := parent.map (fun kv => kv.1)
  let buckets := keys.foldl
    (fun (acc : List (String × List String)) k =>
      let r := ufFind parent parent.length k
      match acc.lookup r with
      | some l => assocSet acc r (l ++ [k])
      | none => acc ++ [(r, [k])])
    []
  buckets.map (fun kv => kv.2)

/-- The main/floating component classification loop of
`connect_floating_subgraphs`. -/
def classifyComponents (original_ids : List String)
    (comps : List (List String)) :
    Option (List String) × List (List String) :=
  comps.foldl
    (fun (st : Option (List String) × List (List String)) comp =>
      if comp.any (fun n => decide (n ∈ original_ids)) then
        match st.1 with
        | none => (some comp, st.2)
        | some m =>
          if comp.length > m.length then (some comp, st.2 ++ [m])
          else (st.1, st.2 ++ [comp])
      else (st.1, st.2 ++ [comp]))
    (none, [])

/-- The closest `(main_id, floating_id)` pair by great-circle distance
(strictly-smaller updates, scan order as in the source). -/
def closestPair (hav : ℚ → ℚ → ℚ → ℚ → ℚ)
    (all_nodes : List (String × MNode)) (comp main : List String) :
    Option (String × String × ℚ) :=
  comp.foldl
    (fun best fid =>
      match all_nodes.lookup fid with
      | none => best
      | some fnode =>
        main.foldl
          (fun best mid =>
            match all_nodes.lookup mid with
            | none => best
            | some mnode =>
              let dist := hav fnode.lon fnode.lat mnode.lon mnode.lat
              match best with
              | none => some (mid, fid, dist)
              | some b => if dist < b.2.2 then some (mid, fid, dist) else best)
          best)
    none

/-- `connect_floating_subgraphs`: classify components, then attach every
floating component to the growing main component with a virtual edge and a
straight-line track between the closest node pair. -/
def connect_floating_subgraphs (hav : ℚ → ℚ → ℚ → ℚ → ℚ)
    (network : MNetwork) (new_nodes : List MNode) (new_edges : List MEdge) :
    List MEdge × List MTrack :=
  let original_ids := network.nodes.map (fun n => n.id)
  let all_nodes := (network.nodes ++ new_nodes).foldl
    (fun m n => assocSet m n.id n) []
  let comps := find_connected_components (network.edges ++ new_edges)
  let cls := classifyComponents original_ids comps
  match cls.1 with
  | none => ([], [])
  | some main0 =>
    let r := cls.2.foldl
      (fun (st : List String × List MEdge × List MTrack) comp =>
        match closestPair hav all_nodes comp st.1 with
        | none => st
        | some b =>
          let main_id := b.1
          let floating_id := b.2.1
          let min_dist := b.2.2
          let ve : MEdge :=
            ⟨main_id, floating_id, pyRound 1 min_dist,
             pyRound 2 (min_dist / 1000), 0, 0, "VIRTUAL",
             "Virtual Connection"⟩
          let vt : MTrack :=
            match all_nodes.lookup main_id, all_nodes.lookup floating_id with
            | some mn, some fn =>
              ⟨main_id, floating_id, [(mn.lon, mn.lat), (fn.lon, fn.lat)],
               0, 0, "Virtual Connection", pyRound 2 (min_dist / 1000)⟩
            | _, _ =>
              ⟨main_id, floating_id, [], 0, 0, "Virtual Connection",
               pyRound 2 (min_dist / 1000)⟩
          (st.1 ++ comp, st.2.1 ++ [ve], st.2.2 ++ [vt]))
      (main0, [], [])
    (r.2.1, r.2.2)

/-- `update_network_files`: extend both artifacts with the new data and
refresh counts, stats and metadata; returns the rewritten file contents. -/
def update_network_files (network : MNetwork) (tracks_data : MTracksData)
    (new_nodes : List MNode) (new_edges : List MEdge)
    (new_tracks : List MTrack) : MNetwork × MTracksData :=
  let nodes := network.nodes ++ new_nodes
  let edges := network.edges ++ new_edges
  let lmr := new_edges.filter (fun e => e.builder_code == "LMR")
  let gwr := new_edges.filter (fun e => e.builder_code == "GWR")
  let lmr_len := (lmr.map (fun e => e.length_km)).sum
  let gwr_len := (gwr.map (fun e => e.length_km)).sum
  let by_builder := assocSet
    (assocSet network.stats.by_builder "LMR" (lmr.length, pyRound 1 lmr_len))
    "GWR" (gwr.length, pyRound 1 gwr_len)
  ({ metadata_source := network.metadata_source ++ " + NRWN (LMR, GWR)"
     nodes := nodes
     edges := edges
     stats := ⟨nodes.length, edges.length, by_builder⟩ },
   { metadata_source := tracks_data.metadata_source ++ " + NRWN"
     track_count := tracks_data.tracks.length + new_tracks.length
     tracks := tracks_data.tracks ++ new_tracks })

/-- The merger `main` from the chain-merged tracks onward: integrate, stop
without writing when no new edges, otherwise connect floating subgraphs and
write both artifacts.  Returns `(exit_code, written_files?)`; `none` means
the input artifacts were not rewritten. -/
def mergerRun (hav : ℚ → ℚ → ℚ → ℚ → ℚ) (merged : List NrwnTrack)
    (network : MNetwork) (tracks_data : MTracksData) :
    ℕ × Option (MNetwork × MTracksData) :=
  let r := integrate_nrwn_tracks hav merged network
  if r.2.1 = [] then (0, none)
  else
    let v := connect_floating_subgraphs hav network r.1 r.2.1
    let new_edges := r.2.1 ++ v.1
    let new_tracks := r.2.2 ++ v.2
    (0, some (update_network_files network tracks_data r.1 new_edges new_tracks))


/-- Concrete test fixture: an empty pre-merge network artifact. -/
def mergerEmptyNet : MNetwork := ⟨"orig", [], [], ⟨0, 0, []⟩⟩

/-- Concrete test fixture: an empty pre-merge tracks artifact. -/
def mergerEmptyTracks : MTracksData := ⟨"orig", 0, []⟩

/-- Concrete test fixture: a single chain-merged NRWN track. -/
def mergerOneTrack : NrwnTrack := ⟨"LMR", "Craik", "Main", [(0, 0), (1, 0)]⟩

/-- Concrete test fixture: a constant great-circle distance function. -/
def havZero : ℚ → ℚ → ℚ → ℚ → ℚ := fun _ _ _ _ => 0


theorem mem_nbrs_iff {es : List REdge} {a v : String} :
    v ∈ nbrs es a ↔ wstep es a v = true := by
  simp only [nbrs, wstep, wlookup, Option.isSome_map', List.mem_filterMap,
    List.find?_isSome, Bool.or_eq_true, Bool.and_eq_true, beq_iff_eq]
  constructor
  · rintro ⟨e, he, hsel⟩
    refine ⟨e, he, ?_⟩
    split at hsel
    · rename_i h1
      injection hsel with hsel
      exact Or.inl ⟨h1, hsel⟩
    · split at hsel
      · rename_i h1 h2
        injection hsel with hsel
        exact Or.inr ⟨hsel, h2⟩
      · cases hsel
  · rintro ⟨e, he, h⟩
    refine ⟨e, he, ?_⟩
    rcases h with ⟨h1, h2⟩ | ⟨h1, h2⟩
    · simp [h1, h2]
    · by_cases hva : v = a
      · simp [h1, h2, hva]
      · have hne : ¬ (e.source == a) = true := by
          simp [h1, hva]
        simp [hne, h1, h2]
        exact fun hc => hc.symm

theorem pathsAux_sound {es : List REdge} :
    ∀ (fuel : ℕ) (avail : List String) a b p, p ∈ pathsAux es fuel avail a b →
      p.head? = some a ∧ p.getLast? = some b ∧
        p.Chain' (fun u v => wstep es u v = true) := by
  intro fuel
  induction fuel with
  | zero =>
    intro avail a b p hp
    simp only [pathsAux] at hp
    by_cases hab : a = b
    · simp only [if_pos hab, List.mem_singleton] at hp
      subst hp; subst hab
      exact ⟨rfl, rfl, List.chain'_singleton a⟩
    · simp [if_neg hab] at hp
  | succ fuel ih =>
    intro avail a b p hp
    simp only [pathsAux] at hp
    by_cases hab : a = b
    · simp only [if_pos hab, List.mem_singleton] at hp
      subst hp; subst hab
      exact ⟨rfl, rfl, List.chain'_singleton a⟩
    · simp only [if_neg hab, List.mem_flatMap, List.mem_map] at hp
      obtain ⟨n, hn, q, hq, hpq⟩ := hp
      have hnb : n ∈ nbrs es a := (List.mem_filter.1 hn).1
      obtain ⟨hqh, hql, hqc⟩ := ih (avail.erase n) n b q hq
      cases q with
      | nil => simp at hqh
      | cons x xs =>
        simp only [List.head?_cons, Option.some.injEq] at hqh
        subst hqh
        subst hpq
        refine ⟨rfl, ?_, ?_⟩
        · simpa [List.getLast?_cons_cons] using hql
        · refine List.chain'_cons'.2 ⟨?_, hqc⟩
          intro y hy
          simp only [List.head?_cons, Option.mem_def, Option.some.injEq] at hy
          subst hy
          exact mem_nbrs_iff.1 hnb

theorem pathsAux_complete {es : List REdge} :
    ∀ (fuel : ℕ) (avail : List String), avail.length ≤ fuel →
      ∀ a b p, p ≠ [] → p.Chain' (fun u v => wstep es u v = true) →
        p.head? = some a → p.getLast? = some b → p.Nodup → p.tail ⊆ avail →
        p ∈ pathsAux es fuel avail a b := by
  intro fuel
  induction fuel with
  | zero =>
    intro avail hlen a b p hne hch hh hl hnd hsub
    have havail : avail = [] := List.length_eq_zero.1 (Nat.le_zero.1 hlen)
    subst havail
    cases p with
    | nil => exact absurd rfl hne
    | cons x rest =>
      simp only [List.head?_cons, Option.some.injEq] at hh
      subst hh
      cases rest with
      | nil =>
        simp only [List.getLast?_singleton, Option.some.injEq] at hl
        subst hl
        simp [pathsAux]
      | cons y t =>
        have hmem : y ∈ ([] : List String) := hsub (by simp)
        simp at hmem
  | succ fuel ih =>
    intro avail hlen a b p hne hch hh hl hnd hsub
    cases p with
    | nil => exact absurd rfl hne
    | cons x rest =>
      simp only [List.head?_cons, Option.some.injEq] at hh
      subst hh
      cases rest with
      | nil =>
        simp only [List.getLast?_singleton, Option.some.injEq] at hl
        subst hl
        simp [pathsAux]
      | cons y t =>
        have hll : (y :: t).getLast? = some b := by
          simpa [List.getLast?_cons_cons] using hl
        have hab : x ≠ b := by
          intro hab
          subst hab
          exact (List.nodup_cons.1 hnd).1 (List.mem_of_getLast?_eq_some hll)
        have hstep : wstep es x y = true := (List.chain'_cons.1 hch).1
        have hyavail : y ∈ avail := hsub (by simp)
        have hyfilter : y ∈ (nbrs es x).filter (fun n => decide (n ∈ avail)) :=
          List.mem_filter.2 ⟨mem_nbrs_iff.2 hstep, by simpa using hyavail⟩
        have hlen' : (avail.erase y).length ≤ fuel := by
          have h2 := List.length_erase_of_mem hyavail
          have h3 : 0 < avail.length := List.length_pos.2 (List.ne_nil_of_mem hyavail)
          omega
        have hndyt : (y :: t).Nodup := (List.nodup_cons.1 hnd).2
        have hrec : (y :: t) ∈ pathsAux es fuel (avail.erase y) y b := by
          refine ih (avail.erase y) hlen' y b (y :: t) (by simp)
            (List.Chain'.tail hch) rfl hll hndyt ?_
          intro w hw
          simp only [List.tail_cons] at hw
          have hwy : w ≠ y := fun h => (List.nodup_cons.1 hndyt).1 (h ▸ hw)
          exact (List.mem_erase_of_ne hwy).2 (hsub (by simp [hw]))
        simp only [pathsAux, if_neg hab, List.mem_flatMap, List.mem_map]
        exact ⟨y, hyfilter, y :: t, hrec, rfl⟩

theorem wlookup_getD_nonneg {es : List REdge} (hw : ∀ e ∈ es, 0 ≤ e.weight)
    (u v : String) : 0 ≤ (wlookup es u v).getD 0 := by
  unfold wlookup
  cases hfind : es.find? fun e =>
      (e.source == u && e.target == v) || (e.source == v && e.target == u) with
  | none => simp
  | some e =>
    simp only [Option.map_some', Option.getD_some]
    exact hw e (List.mem_of_find?_eq_some hfind)

theorem walkW_nonneg {es : List REdge} (hw : ∀ e ∈ es, 0 ≤ e.weight) :
    ∀ p, 0 ≤ walkW es p := by
  intro p
  induction p with
  | nil => simp [walkW]
  | cons u rest ih =>
    cases rest with
    | nil => simp [walkW]
    | cons v t =>
      simp only [walkW]
      exact add_nonneg (wlookup_getD_nonneg hw u v) ih

theorem walkW_append_cons (es : List REdge) (y : String) :
    ∀ (l t : List String),
      walkW es (l ++ y :: t) = walkW es (l ++ [y]) + walkW es (y :: t) := by
  intro l
  induction l with
  | nil => intro t; simp [walkW]
  | cons a l ih =>
    intro t
    cases l with
    | nil => simp [walkW]
    | cons b l' =>
      have ih' := ih t
      simp only [List.cons_append, List.append_eq] at ih' ⊢
      simp only [walkW, List.append_eq]
      rw [ih']
      ring

theorem exists_nodup_walk {es : List REdge} (hw : ∀ e ∈ es, 0 ≤ e.weight) :
    ∀ (N : ℕ) (p : List String), p.length ≤ N → p ≠ [] →
      p.Chain' (fun u v => wstep es u v = true) →
      ∃ q, q ≠ [] ∧ q.Chain' (fun u v => wstep es u v = true) ∧
        q.head? = p.head? ∧ q.getLast? = p.getLast? ∧ q.Nodup ∧ q ⊆ p ∧
        walkW es q ≤ walkW es p := by
  intro N
  induction N with
  | zero =>
    intro p hlen hne _
    cases p with
    | nil => exact absurd rfl hne
    | cons x rest => simp at hlen
  | succ N ih =>
    intro p hlen hne hch
    cases p with
    | nil => exact absurd rfl hne
    | cons x rest =>
      by_cases hx : x ∈ rest
      · obtain ⟨r1, r2, hsplit⟩ := List.append_of_mem hx
        have hpform : x :: rest = (x :: r1) ++ (x :: r2) := by simp [hsplit]
        have hch2 : (x :: r2).Chain' (fun u v => wstep es u v = true) := by
          have hchapp := hpform ▸ hch
          exact (List.chain'_append.1 hchapp).2.1
        have hlast : (x :: rest).getLast? = (x :: r2).getLast? := by
          rw [hpform]
          exact List.getLast?_append_of_ne_nil _ (by simp)
        have hwsplit : walkW es (x :: rest) =
            walkW es ((x :: r1) ++ [x]) + walkW es (x :: r2) := by
          rw [hpform]
          exact walkW_append_cons es x (x :: r1) r2
        have hlen2 : (x :: r2).length ≤ N := by
          have hlform : (x :: rest).length = (x :: r1).length + (x :: r2).length := by
            rw [hpform, List.length_append]
          simp only [List.length_cons] at hlform hlen ⊢
          omega
        obtain ⟨q, hq1, hq2, hq3, hq4, hq5, hq6, hq7⟩ :=
          ih (x :: r2) hlen2 (by simp) hch2
        refine ⟨q, hq1, hq2, by simpa using hq3, by rw [hlast]; exact hq4, hq5, ?_, ?_⟩
        · intro z hz
          have hz2 := hq6 hz
          rw [hpform]
          simp only [List.mem_append]
          exact Or.inr hz2
        · calc walkW es q ≤ walkW es (x :: r2) := hq7
            _ ≤ walkW es (x :: rest) := by
                rw [hwsplit]
                have hnn := walkW_nonneg hw ((x :: r1) ++ [x])
                linarith
      · cases rest with
        | nil =>
          exact ⟨[x], by simp, List.chain'_singleton x, rfl, rfl, by simp, by simp,
            le_refl _⟩
        | cons y t =>
          obtain ⟨q', hq1, hq2, hq3, hq4, hq5, hq6, hq7⟩ :=
            ih (y :: t) (by simpa using hlen) (by simp) (List.Chain'.tail hch)
          have hxq : x ∉ q' := fun h => hx (hq6 h)
          cases q' with
          | nil => exact absurd rfl hq1
          | cons z zs =>
            have hzy : z = y := by simpa using hq3
            subst hzy
            refine ⟨x :: z :: zs, by simp, ?_, rfl, ?_, ?_, ?_, ?_⟩
            · exact List.chain'_cons.2 ⟨(List.chain'_cons.1 hch).1, hq2⟩
            · rw [List.getLast?_cons_cons, List.getLast?_cons_cons]
              simpa using hq4
            · exact List.nodup_cons.2 ⟨hxq, hq5⟩
            · intro w hw2
              rcases List.mem_cons.1 hw2 with h | h
              · exact h ▸ List.mem_cons_self x (z :: t)
              · exact List.mem_cons_of_mem x (hq6 h)
            · have hwx : walkW es (x :: z :: zs) =
                  (wlookup es x z).getD 0 + walkW es (z :: zs) := by simp [walkW]
              have hwy : walkW es (x :: z :: t) =
                  (wlookup es x z).getD 0 + walkW es (z :: t) := by simp [walkW]
              rw [hwx, hwy]
              exact add_le_add_left hq7 _

theorem wstep_mem_graphNodes {es : List REdge} {u v : String}
    (h : wstep es u v = true) : u ∈ graphNodes es ∧ v ∈ graphNodes es := by
  simp only [wstep, wlookup, Option.isSome_map', List.find?_isSome,
    Bool.or_eq_true, Bool.and_eq_true, beq_iff_eq] at h
  obtain ⟨e, he, hsel⟩ := h
  constructor <;>
    · unfold graphNodes
      simp only [List.mem_flatMap]
      rcases hsel with ⟨h1, h2⟩ | ⟨h1, h2⟩ <;> exact ⟨e, he, by simp [h1, h2]⟩

theorem chain'_tail_step {es : List REdge} :
    ∀ p : List String, p.Chain' (fun u v => wstep es u v = true) →
      ∀ x ∈ p.tail, ∃ y, wstep es y x = true := by
  intro p
  induction p with
  | nil => intro _ x hx; simp at hx
  | cons u rest ih =>
    intro hch x hx
    cases rest with
    | nil => simp at hx
    | cons v t =>
      simp only [List.tail_cons] at hx
      rcases List.mem_cons.1 hx with h | h
      · exact ⟨u, h ▸ (List.chain'_cons.1 hch).1⟩
      · exact ih (List.chain'_cons.1 hch).2 x (by simp [h])

theorem dijkstraPath_spec {es : List REdge} (hw : ∀ e ∈ es, 0 ≤ e.weight)
    {a b : String} {p : List String} (hp : dijkstraPath es a b = some p) :
    isWalk es p ∧ p.head? = some a ∧ p.getLast? = some b ∧
      ∀ q, isWalk es q → q.head? = some a → q.getLast? = some b →
        walkW es p ≤ walkW es q := by
  have hpargmin : p ∈ (allPaths es a b).argmin (walkW es) := hp
  have hpmem : p ∈ allPaths es a b := List.argmin_mem hpargmin
  obtain ⟨hh, hl, hc⟩ :=
    pathsAux_sound ((graphNodes es).erase a).length _ a b p hpmem
  refine ⟨⟨?_, hc⟩, hh, hl, ?_⟩
  · intro hnil; subst hnil; simp at hh
  · rintro q ⟨hqne, hqch⟩ hqh hql
    obtain ⟨q', h1, h2, h3, h4, h5, _, h7⟩ :=
      exists_nodup_walk hw q.length q le_rfl hqne hqch
    have hq'h : q'.head? = some a := h3.trans hqh
    have hq'l : q'.getLast? = some b := h4.trans hql
    have hq'mem : q' ∈ allPaths es a b := by
      refine pathsAux_complete ((graphNodes es).erase a).length
        ((graphNodes es).erase a) le_rfl a b q' h1 h2 hq'h hq'l h5 ?_
      intro x hx
      obtain ⟨y, hy⟩ := chain'_tail_step q' h2 x hx
      have hxg : x ∈ graphNodes es := (wstep_mem_graphNodes hy).2
      obtain ⟨t', ht'⟩ : ∃ t', q' = a :: t' := by
        cases q' with
        | nil => simp at hq'h
        | cons w ws =>
          simp only [List.head?_cons, Option.some.injEq] at hq'h
          exact ⟨ws, by rw [hq'h]⟩
      have hxa : x ≠ a := by
        intro hxa
        subst hxa
        rw [ht'] at hx h5
        simp only [List.tail_cons] at hx
        exact (List.nodup_cons.1 h5).1 hx
      exact (List.mem_erase_of_ne hxa).2 hxg
    exact (List.le_of_mem_argmin hq'mem hpargmin).trans h7

/-- Claim C1: for settlement pairs whose snap records have distinct primary
nodes and are not both edge-snapped to the same edge, the router takes the
Dijkstra branch, and the distance it computes equals the weight of an actual
path between the two primary nodes divided by 1000, with no other path
(walk) between those nodes having strictly smaller total `length_m` weight
(Dijkstra optimality, for the physically non-negative edge weights). -/
theorem c1_router_dijkstra_optimal (es : List REdge)
    (hw : ∀ e ∈ es, 0 ≤ e.weight) (m1 m2 : RMapping)
    (hedge : are_on_same_edge m1 m2 = false) (hnode : m1.node ≠ m2.node)
    (d : ℚ) (p : List String)
    (hcalc : calculate_railway_distance es m1.node m2.node = some (d, p)) :
    routerPairDistance es m1 m2 = some d ∧
    isWalk es p ∧ p.head? = some m1.node ∧ p.getLast? = some m2.node ∧
    d = walkW es p / 1000 ∧
    ∀ q, isWalk es q → q.head? = some m1.node → q.getLast? = some m2.node →
      walkW es p ≤ walkW es q := by
  obtain ⟨hdp, hd⟩ : dijkstraPath es m1.node m2.node = some p ∧
      d = walkW es p / 1000 := by
    unfold calculate_railway_distance at hcalc
    cases hdp : dijkstraPath es m1.node m2.node with
    | none => rw [hdp] at hcalc; simp at hcalc
    | some p' =>
      rw [hdp] at hcalc
      simp only [Option.map_some', Option.some.injEq, Prod.mk.injEq] at hcalc
      exact ⟨by rw [hcalc.2], by rw [← hcalc.1, hcalc.2]⟩
  obtain ⟨hwalk, hh, hl, hopt⟩ := dijkstraPath_spec hw hdp
  refine ⟨?_, hwalk, hh, hl, hd, hopt⟩
  unfold routerPairDistance
  rw [hedge]
  simp only [Bool.false_eq_true, if_false]
  rw [if_neg hnode]
  unfold calculate_railway_distance
  rw [hdp]
  simp [hd]

theorem c1_router_dijkstra_optimal_witness :
    routerPairDistance [⟨"a", "b", 3⟩]
      ⟨"a", ["a"], "node", none, none⟩ ⟨"b", ["b"], "node", none, none⟩ =
      some (3 / 1000) :=
  (c1_router_dijkstra_optimal [⟨"a", "b", 3⟩] (by decide)
    ⟨"a", ["a"], "node", none, none⟩ ⟨"b", ["b"], "node", none, none⟩
    (by decide) (by decide) (3 / 1000) ["a", "b"]
    (by
      have h : allPaths [⟨"a", "b", 3⟩] "a" "b" = [["a", "b"]] := by decide
      have h2 : wlookup [⟨"a", "b", 3⟩] "a" "b" = some 3 := by decide
      unfold calculate_railway_distance dijkstraPath
      rw [h]
      simp [List.argmin_singleton, walkW, h2])).1

theorem sortPair_comm (s t : String) : sortPair s t = sortPair t s := by
  unfold sortPair
  rcases le_total s t with h | h
  · by_cases h2 : t ≤ s
    · have hst : s = t := le_antisymm h h2
      subst hst
      simp
    · simp [h, h2]
  · by_cases h2 : s ≤ t
    · have hst : s = t := le_antisymm h2 h
      subst hst
      simp
    · simp [h, h2]

/-- Claim C10: the railway distance the router records is symmetric.  Each
unordered settlement pair is computed once under the sorted name-pair key,
and the final loop writes that single value onto the records of both
directions, so the `railway_distance_km` written on the A→B record equals
the one written on the B→A record. -/
theorem c10_railway_distance_symmetric
    (pd : List ((String × String) × Option ℚ))
    (conns : List (String × List Conn)) (s1 s2 : String)
    (l1 l2 : List Conn) (c1 c2 : Conn)
    (h1 : (s1, l1) ∈ conns) (_hc1 : c1 ∈ l1) (hd1 : c1.dest = s2)
    (h2 : (s2, l2) ∈ conns) (_hc2 : c2 ∈ l2) (hd2 : c2.dest = s1)
    (v : Option ℚ) (hv : pd.lookup (sortPair s1 s2) = some v) :
    (s1, l1.map (applyPairDistance pd s1)) ∈ applyRailwayDistances pd conns ∧
    (s2, l2.map (applyPairDistance pd s2)) ∈ applyRailwayDistances pd conns ∧
    (applyPairDistance pd s1 c1).railway = some v ∧
    (applyPairDistance pd s2 c2).railway = some v := by
  refine ⟨List.mem_map_of_mem _ h1, List.mem_map_of_mem _ h2, ?_, ?_⟩
  · unfold applyPairDistance
    rw [hd1, hv]
  · unfold applyPairDistance
    rw [hd2, sortPair_comm s2 s1, hv]

theorem c10_railway_distance_symmetric_witness :
    (applyPairDistance [(("A", "B"), some (5 : ℚ))] "A"
        ⟨"B", 7, none⟩).railway = some (some 5) ∧
    (applyPairDistance [(("A", "B"), some (5 : ℚ))] "B"
        ⟨"A", 7, none⟩).railway = some (some 5) := by
  have h := c10_railway_distance_symmetric
    [(("A", "B"), some (5 : ℚ))]
    [("A", [⟨"B", 7, none⟩]), ("B", [⟨"A", 7, none⟩])]
    "A" "B" [⟨"B", 7, none⟩] [⟨"A", 7, none⟩] ⟨"B", 7, none⟩ ⟨"A", 7, none⟩
    (by decide) (by decide) rfl (by decide) (by decide) rfl (some 5)
    (by
      rw [show sortPair "A" "B" = ("A", "B") from by
        rw [sortPair, if_pos (String.le_iff_toList_le.2 (by decide))]]
      decide)
  exact ⟨h.2.2.1, h.2.2.2⟩

theorem bankersRound_nonneg {α : Type} [LinearOrderedField α] [FloorRing α]
    {s : α} (h : 0 ≤ s) : 0 ≤ bankersRound s := by
  have hfl : (0 : ℤ) ≤ ⌊s⌋ := Int.floor_nonneg.2 h
  unfold bankersRound
  split
  · exact hfl
  · split
    · omega
    · split <;> omega

theorem bankersRound_le {α : Type} [LinearOrderedField α] [FloorRing α]
    {s : α} {n : ℤ} (h : s ≤ n) : bankersRound s ≤ n := by
  have hfl : ⌊s⌋ ≤ n := by
    have hmono := Int.floor_le_floor (α := α) h
    simpa using hmono
  unfold bankersRound
  split
  · exact hfl
  · rename_i h1
    have hlt : ⌊s⌋ < n := by
      rcases lt_or_eq_of_le hfl with hc | hc
      · exact hc
      · exfalso
        apply h1
        have : s - ⌊s⌋ ≤ 0 := by
          rw [hc]
          exact sub_nonpos.2 h
        linarith
    split
    · omega
    · split <;> omega

theorem pyRound_mem_unit {α : Type} [LinearOrderedField α] [FloorRing α]
    {d : ℕ} {t : α} (h0 : 0 ≤ t) (h1 : t ≤ 1) :
    0 ≤ pyRound d t ∧ pyRound d t ≤ 1 := by
  have hpow : (0 : α) < 10 ^ d := by positivity
  have hlow : (0 : ℤ) ≤ bankersRound (t * 10 ^ d) :=
    bankersRound_nonneg (by positivity)
  have hup : bankersRound (t * 10 ^ d) ≤ ((10 : ℤ) ^ d) := by
    apply bankersRound_le
    push_cast
    calc t * 10 ^ d ≤ 1 * 10 ^ d := by
          exact mul_le_mul_of_nonneg_right h1 (le_of_lt hpow)
      _ = 10 ^ d := one_mul _
  unfold pyRound
  constructor
  · apply div_nonneg _ (le_of_lt hpow)
    exact_mod_cast hlow
  · rw [div_le_one hpow]
    have hc : ((bankersRound (t * 10 ^ d) : ℤ) : α) ≤ (((10 : ℤ) ^ d : ℤ) : α) := by
      exact_mod_cast hup
    have hc2 : (((10 : ℤ) ^ d : ℤ) : α) = 10 ^ d := by push_cast; ring
    linarith

/-- Claim C2: the snapper's point-to-segment parameter is always clamped to
`[0,1]` (also after the stored `round(t, 4)`), and for two settlements on the
same edge the router's same-edge branch returns `|t₁ − t₂| × edge_length_km`,
which never exceeds `edge_length_km`. -/
theorem c2_same_edge_distance_bounded :
    (∀ px py x1 y1 x2 y2 : ℝ,
        0 ≤ (point_to_segment_distance_with_t px py x1 y1 x2 y2).2 ∧
        (point_to_segment_distance_with_t px py x1 y1 x2 y2).2 ≤ 1) ∧
    (∀ t : ℝ, 0 ≤ t → t ≤ 1 → 0 ≤ pyRound 4 t ∧ pyRound 4 t ≤ 1) ∧
    (∀ (es : List REdge) (m1 m2 : RMapping) (t1 t2 el : ℚ),
        m1.edge_t = some t1 → m2.edge_t = some t2 →
        m1.edge_length_km = some el →
        0 ≤ t1 → t1 ≤ 1 → 0 ≤ t2 → t2 ≤ 1 → 0 ≤ el →
        calculate_same_edge_distance m1 m2 = some (|t2 - t1| * el) ∧
        |t2 - t1| * el ≤ el ∧
        (are_on_same_edge m1 m2 = true →
          routerPairDistance es m1 m2 = some (|t2 - t1| * el))) := by
  refine ⟨?_, ?_, ?_⟩
  · intro px py x1 y1 x2 y2
    simp only [point_to_segment_distance_with_t]
    split
    · norm_num
    · constructor
      · exact le_max_left 0 _
      · exact max_le (by norm_num) (min_le_left 1 _)
  · intro t h0 h1
    exact pyRound_mem_unit h0 h1
  · intro es m1 m2 t1 t2 el ht1 ht2 hel h01 h11 h02 h12 h0el
    have hcalc : calculate_same_edge_distance m1 m2 = some (|t2 - t1| * el) := by
      unfold calculate_same_edge_distance
      rw [ht1, ht2, hel]
    have habs : |t2 - t1| ≤ 1 := by
      rw [abs_le]
      constructor <;> linarith
    have hle : |t2 - t1| * el ≤ el := by
      calc |t2 - t1| * el ≤ 1 * el :=
            mul_le_mul_of_nonneg_right habs h0el
        _ = el := one_mul el
    refine ⟨hcalc, hle, ?_⟩
    intro hsame
    unfold routerPairDistance
    rw [hsame, if_pos rfl, hcalc]

theorem c2_same_edge_distance_bounded_witness :
    calculate_same_edge_distance
      ⟨"n0", ["n0", "n1"], "edge", some (1/2), some 10⟩
      ⟨"n0", ["n0", "n1"], "edge", some (4/5), some 10⟩ =
      some (|(4/5 : ℚ) - 1/2| * 10) ∧
    |(4/5 : ℚ) - 1/2| * 10 ≤ 10 := by
  have h := c2_same_edge_distance_bounded.2.2 []
    ⟨"n0", ["n0", "n1"], "edge", some (1/2), some 10⟩
    ⟨"n0", ["n0", "n1"], "edge", some (4/5), some 10⟩
    (1/2) (4/5) 10 rfl rfl rfl
    (by norm_num) (by norm_num) (by norm_num) (by norm_num) (by norm_num)
  exact ⟨h.1, h.2.1⟩

theorem find_nearest_node_tie_eval :
    find_nearest_node 0 5 [⟨"n0", 0, 0⟩, ⟨"n1", 10, 0⟩] = some ("n0", 5) := by
  have h25 : Real.sqrt ((0 - (0:ℝ)) ^ 2 + (0 - 5) ^ 2) = 5 := by
    rw [show ((0 - (0:ℝ)) ^ 2 + (0 - 5) ^ 2) = 5 ^ 2 by norm_num]
    exact Real.sqrt_sq (by norm_num)
  have h125 : ¬ Real.sqrt ((10 - (0:ℝ)) ^ 2 + (0 - 5) ^ 2) < 5 := by
    rw [show ((10 - (0:ℝ)) ^ 2 + (0 - 5) ^ 2) = 125 by norm_num]
    have h5 : (5 : ℝ) = Real.sqrt 25 := by
      rw [show (25:ℝ) = 5 ^ 2 by norm_num]
      exact (Real.sqrt_sq (by norm_num)).symm
    rw [not_lt, h5]
    exact Real.sqrt_le_sqrt (by norm_num)
  unfold find_nearest_node
  simp only [List.foldl_cons, List.foldl_nil]
  rw [h25, if_neg h125]

theorem find_nearest_edge_tie_eval :
    find_nearest_edge_point 0 5 [⟨"n0", "n1", 1⟩] [⟨"n0", 0, 0⟩, ⟨"n1", 10, 0⟩] =
      some (("n0", "n1"), 5, 0, 1) := by
  unfold find_nearest_edge_point
  simp only [List.foldl_cons, List.foldl_nil, List.find?,
    show (("n0":String) == "n0") = true from rfl,
    show (("n1":String) == "n0") = false from rfl,
    show (("n0":String) == "n1") = false from rfl,
    show (("n1":String) == "n1") = true from rfl]
  simp only [point_to_segment_distance_with_t]
  rw [if_neg (by norm_num : ¬ ((10:ℝ) - 0 = 0 ∧ (0:ℝ) - 0 = 0))]
  norm_num
  rw [show (25:ℝ) = 5 ^ 2 by norm_num]
  exact Real.sqrt_sq (by norm_num)

/-- Claim C3 (amended): the snapper selects the element with the smaller
distance, but it takes the edge snap exactly when the edge distance is
strictly smaller than the node distance; when the two distances are exactly
equal it prefers the node snap (`if edge_dist < node_dist` in `main`). -/
theorem c3_snap_selection (x y : ℝ) (nodes : List SnapNode)
    (edges : List SnapEdge) (nid : String) (nd : ℝ)
    (ne : String × String) (ed et el : ℝ)
    (hn : find_nearest_node x y nodes = some (nid, nd))
    (he : find_nearest_edge_point x y edges nodes = some (ne, ed, et, el)) :
    snapSettlement x y nodes edges =
      some (if ed < nd then ⟨"edge", [ne.1, ne.2], some (pyRound 4 et), some el, ed⟩
            else ⟨"node", [nid], none, none, nd⟩) ∧
    (snapSettlement x y nodes edges).map (fun r => r.snap_distance) =
      some (min nd ed) ∧
    (snapSettlement x y nodes edges).map (fun r => r.snap_type) =
      some (if ed < nd then "edge" else "node") := by
  unfold snapSettlement
  rw [hn, he]
  dsimp only
  by_cases hlt : ed < nd
  · refine ⟨?_, ?_, ?_⟩
    · simp [hlt]
    · simp [hlt, min_eq_right (le_of_lt hlt)]
    · simp [hlt]
  · refine ⟨?_, ?_, ?_⟩
    · simp [hlt]
    · simp [hlt, min_eq_left (not_lt.1 hlt)]
    · simp [hlt]

theorem c3_snap_selection_witness :
    snapSettlement 0 5 [⟨"n0", 0, 0⟩, ⟨"n1", 10, 0⟩] [⟨"n0", "n1", 1⟩] =
      some (if (5:ℝ) < 5 then
              ⟨"edge", ["n0", "n1"], some (pyRound 4 (0:ℝ)), some 1, 5⟩
            else ⟨"node", ["n0"], none, none, 5⟩) :=
  (c3_snap_selection 0 5 [⟨"n0", 0, 0⟩, ⟨"n1", 10, 0⟩] [⟨"n0", "n1", 1⟩]
    "n0" 5 ("n0", "n1") 5 0 1
    find_nearest_node_tie_eval find_nearest_edge_tie_eval).1

/-- On the concrete tie input the node distance and the edge distance are
both exactly 5, yet the snapper records a node snap, not the edge snap the
claim requires. -/
theorem c3_equal_distance_counterexample :
    find_nearest_node 0 5 [⟨"n0", 0, 0⟩, ⟨"n1", 10, 0⟩] = some ("n0", 5) ∧
    find_nearest_edge_point 0 5 [⟨"n0", "n1", 1⟩] [⟨"n0", 0, 0⟩, ⟨"n1", 10, 0⟩] =
      some (("n0", "n1"), 5, 0, 1) ∧
    (snapSettlement 0 5 [⟨"n0", 0, 0⟩, ⟨"n1", 10, 0⟩]
        [⟨"n0", "n1", 1⟩]).map (fun r => r.snap_type) = some "node" := by
  refine ⟨find_nearest_node_tie_eval, find_nearest_edge_tie_eval, ?_⟩
  unfold snapSettlement
  rw [find_nearest_node_tie_eval, find_nearest_edge_tie_eval]
  norm_num

theorem findNearNode_spec (x y : ℚ) (tol : ℝ) :
    ∀ nodes : List BNode,
      (∀ n, findNearNode x y tol nodes = some n →
        ∃ pre post, nodes = pre ++ n :: post ∧
          (∀ m ∈ pre, ¬ distR (m.x, m.y) (x, y) < tol) ∧
          distR (n.x, n.y) (x, y) < tol) ∧
      (findNearNode x y tol nodes = none →
        ∀ n ∈ nodes, ¬ distR (n.x, n.y) (x, y) < tol) := by
  intro nodes
  induction nodes with
  | nil =>
    constructor
    · intro n h; simp [findNearNode] at h
    · intro _ n h; simp at h
  | cons m rest ih =>
    constructor
    · intro n h
      unfold findNearNode at h
      split at h
      · rename_i hlt
        injection h with h
        subst h
        exact ⟨[], rest, rfl, by simp, hlt⟩
      · rename_i hge
        obtain ⟨pre, post, hsplit, hpre, hn⟩ := ih.1 n h
        refine ⟨m :: pre, post, by rw [hsplit]; rfl, ?_, hn⟩
        intro m2 hm2
        rcases List.mem_cons.1 hm2 with h2 | h2
        · subst h2; exact hge
        · exact hpre m2 h2
    · intro h n hn
      unfold findNearNode at h
      split at h
      · cases h
      · rename_i hge
        rcases List.mem_cons.1 hn with h2 | h2
        · subst h2; exact hge
        · exact ih.2 h n h2

/-- Claim C4 (amended): when resolving a segment endpoint, the builder
reuses the FIRST existing node (in insertion order) lying strictly within
`snap_tolerance` (500 m) — not necessarily the nearest such node — and it
creates a new node `n<index>` at the exact endpoint coordinates only when
no existing node lies within 500 m. -/
theorem c4_find_or_create_node_first_within (nodes : List BNode) (x y : ℚ)
    (idx : ℕ) :
    (∃ pre n post, nodes = pre ++ n :: post ∧
        (∀ m ∈ pre, ¬ distR (m.x, m.y) (x, y) < 500) ∧
        distR (n.x, n.y) (x, y) < 500 ∧
        find_or_create_node nodes x y idx = ((n.id, idx), nodes)) ∨
    ((∀ n ∈ nodes, ¬ distR (n.x, n.y) (x, y) < 500) ∧
      find_or_create_node nodes x y idx =
        (("n" ++ toString idx, idx + 1),
          nodes ++ [⟨"n" ++ toString idx, x, y⟩])) := by
  unfold find_or_create_node
  cases hfind : findNearNode x y 500 nodes with
  | some n =>
    left
    obtain ⟨pre, post, hsplit, hpre, hn⟩ := (findNearNode_spec x y 500 nodes).1 n hfind
    exact ⟨pre, n, post, hsplit, hpre, hn, rfl⟩
  | none =>
    right
    exact ⟨(findNearNode_spec x y 500 nodes).2 hfind, rfl⟩

/-- On the concrete graph `n0 = (0,0)`, `n1 = (500,0)` and endpoint
`(300, 0)` the builder reuses `n0` (at distance 300) although `n1` is
strictly nearer (distance 200): the resolution is first-within-tolerance,
not nearest. -/
theorem c4_not_nearest_counterexample :
    (find_or_create_node [⟨"n0", 0, 0⟩, ⟨"n1", 500, 0⟩] 300 0 2).1 = ("n0", 2) ∧
    distR ((500 : ℚ), (0 : ℚ)) ((300 : ℚ), (0 : ℚ)) <
      distR ((0 : ℚ), (0 : ℚ)) ((300 : ℚ), (0 : ℚ)) := by
  have h300 : distR ((0 : ℚ), (0 : ℚ)) ((300 : ℚ), (0 : ℚ)) = 300 := by
    unfold distR
    norm_num
    rw [show (90000 : ℝ) = 300 ^ 2 by norm_num]
    exact Real.sqrt_sq (by norm_num)
  have h200 : distR ((500 : ℚ), (0 : ℚ)) ((300 : ℚ), (0 : ℚ)) = 200 := by
    unfold distR
    norm_num
    rw [show (40000 : ℝ) = 200 ^ 2 by norm_num]
    exact Real.sqrt_sq (by norm_num)
  constructor
  · unfold find_or_create_node findNearNode
    rw [show distR (((⟨"n0", 0, 0⟩ : BNode).x, (⟨"n0", 0, 0⟩ : BNode).y))
          ((300 : ℚ), (0 : ℚ)) = 300 from h300]
    rw [if_pos (by norm_num : (300 : ℝ) < 500)]
  · rw [h200, h300]
    norm_num

theorem c6_addSegmentEdge_spec (u v : String) (d : BEdgeData) :
    ∀ (pre : List BEdge) (e : BEdge) (post : List BEdge),
      ((e.u = u ∧ e.v = v) ∨ (e.u = v ∧ e.v = u)) →
      (∀ e0 ∈ pre, ¬ ((e0.u = u ∧ e0.v = v) ∨ (e0.u = v ∧ e0.v = u))) →
      addSegmentEdge (pre ++ e :: post) u v d =
        pre ++ (if d.length_m < e.data.length_m then (⟨e.u, e.v, d⟩ : BEdge)
                else e) :: post := by
  intro pre
  induction pre with
  | nil =>
    intro e post hmatch _
    simp only [List.nil_append]
    unfold addSegmentEdge
    rw [if_pos hmatch]
    by_cases hlt : d.length_m < e.data.length_m
    · rw [if_pos hlt, if_pos hlt]
    · rw [if_neg hlt, if_neg hlt]
  | cons p pre ih =>
    intro e post hmatch hpre
    have hp : ¬ ((p.u = u ∧ p.v = v) ∨ (p.u = v ∧ p.v = u)) :=
      hpre p (List.mem_cons_self p pre)
    have hrest : ∀ e0 ∈ pre, ¬ ((e0.u = u ∧ e0.v = v) ∨ (e0.u = v ∧ e0.v = u)) :=
      fun e0 h0 => hpre e0 (List.mem_cons_of_mem p h0)
    simp only [List.cons_append]
    unfold addSegmentEdge
    rw [if_neg hp]
    rw [ih e post hmatch hrest]

/-- Claim C6: when a segment is inserted between a node pair that already
has an edge, the existing edge's attributes are replaced exactly when the
new segment's length is strictly smaller; otherwise the edge list is
unchanged, and in both cases no second edge is added between the pair. -/
theorem c6_duplicate_edge_keeps_shorter (u v : String) (d : BEdgeData)
    (pre : List BEdge) (e : BEdge) (post : List BEdge)
    (hmatch : (e.u = u ∧ e.v = v) ∨ (e.u = v ∧ e.v = u))
    (hpre : ∀ e0 ∈ pre, ¬ ((e0.u = u ∧ e0.v = v) ∨ (e0.u = v ∧ e0.v = u))) :
    (d.length_m < e.data.length_m →
      addSegmentEdge (pre ++ e :: post) u v d =
        pre ++ (⟨e.u, e.v, d⟩ : BEdge) :: post) ∧
    (¬ d.length_m < e.data.length_m →
      addSegmentEdge (pre ++ e :: post) u v d = pre ++ e :: post) ∧
    (addSegmentEdge (pre ++ e :: post) u v d).length =
      (pre ++ e :: post).length := by
  have hspec := c6_addSegmentEdge_spec u v d pre e post hmatch hpre
  refine ⟨?_, ?_, ?_⟩
  · intro hlt
    rw [hspec, if_pos hlt]
  · intro hlt
    rw [hspec, if_neg hlt]
  · rw [hspec]
    simp

theorem c6_duplicate_edge_keeps_shorter_witness :
    (addSegmentEdge [⟨"a", "b", ⟨5, 0, 0, "1", "CPR", []⟩⟩] "a" "b"
        ⟨3, 0, 0, "1", "CPR", []⟩).length =
      [(⟨"a", "b", ⟨5, 0, 0, "1", "CPR", []⟩⟩ : BEdge)].length :=
  (c6_duplicate_edge_keeps_shorter "a" "b" ⟨3, 0, 0, "1", "CPR", []⟩
    [] ⟨"a", "b", ⟨5, 0, 0, "1", "CPR", []⟩⟩ []
    (Or.inl ⟨rfl, rfl⟩) (by simp)).2.2

/-- Claim C9: the builder stage is a deterministic function of its input
polyline sequence — two runs on equal inputs produce equal persisted
artifacts.  (Every collection the source iterates is modelled with its
deterministic iteration order; there is no randomness, time, or other
ambient input.) -/
theorem c9_builder_deterministic (inv : ℚ × ℚ → ℚ × ℚ)
    (recs1 recs2 : List (BShape × BRecord)) (h : recs1 = recs2) :
    buildRailwayNetwork inv recs1 = buildRailwayNetwork inv recs2 := by
  rw [h]

theorem c9_builder_deterministic_witness :
    buildRailwayNetwork (fun p => p)
        [(⟨some (0, 0, 4, 0), [(0, 0), (4, 0)]⟩, ⟨7, 0, 1910, 0, "1"⟩)] =
      buildRailwayNetwork (fun p => p)
        [(⟨some (0, 0, 4, 0), [(0, 0), (4, 0)]⟩, ⟨7, 0, 1910, 0, "1"⟩)] :=
  c9_builder_deterministic (fun p => p) _ _ rfl

theorem bankersRound_intCast {α : Type} [LinearOrderedField α] [FloorRing α]
    (k : ℤ) : bankersRound ((k : α)) = k := by
  unfold bankersRound
  rw [Int.floor_intCast, sub_self]
  rw [if_pos (by norm_num : (0 : α) < 1 / 2)]

theorem pyRound_intCast {α : Type} [LinearOrderedField α] [FloorRing α]
    (d : ℕ) (k : ℤ) : pyRound d ((k : α)) = k := by
  unfold pyRound
  have h : ((k : α) * 10 ^ d) = (((k * 10 ^ d : ℤ) : α)) := by push_cast; ring
  rw [h, bankersRound_intCast]
  push_cast
  rw [mul_div_assoc, div_self (by positivity : ((10 : α) ^ d) ≠ 0), mul_one]

theorem bankersRound_four_tenths : bankersRound ((4 : ℚ) / 10) = 0 := by
  have hfl : ⌊(4 : ℚ) / 10⌋ = 0 := by
    rw [Int.floor_eq_zero_iff]
    constructor <;> norm_num
  unfold bankersRound
  rw [hfl]
  rw [if_pos (by norm_num : (4 : ℚ) / 10 - ((0 : ℤ) : ℚ) < 1 / 2)]

theorem round_point_zero : round_point 0 0 = (0, 0) := by
  unfold round_point
  rw [show ((0 : ℚ) / 10) = ((0 : ℤ) : ℚ) by norm_num, bankersRound_intCast]
  norm_num

theorem round_point_four : round_point 4 0 = (0, 0) := by
  unfold round_point
  rw [bankersRound_four_tenths,
    show ((0 : ℚ) / 10) = ((0 : ℤ) : ℚ) by norm_num, bankersRound_intCast]
  norm_num

/-- Claim C5, evaluated at the failing input: the single accepted polyline
`[(0,0), (4,0)]` has both of its vertices in the 10 m grid cell `(0,0)`,
and Pass 1 marks that cell a junction (represented by the first original
vertex `(0,0)`), although only one polyline is involved.  This contradicts
the function's own documentation ("junction points are those appearing in
multiple tracks"). -/
theorem c5_single_polyline_creates_junction :
    find_junction_points (fun _ => (-105, 50))
      [(⟨some (0, 0, 4, 0), [(0, 0), (4, 0)]⟩, ⟨7, 0, 1910, 0, "1"⟩)] =
      [(0, 0)] := by
  unfold find_junction_points
  simp only [List.foldl_cons, List.foldl_nil]
  norm_num [is_in_saskatchewan, round_point_zero, round_point_four,
    bumpCount, insertFirst]
  decide

theorem resolveEndpoint_newEdges (hav : ℚ → ℚ → ℚ → ℚ → ℚ)
    (en : List MNode) (st : IntState) (lon lat : ℚ) :
    ((resolveEndpoint hav en st lon lat).2).newEdges = st.newEdges := by
  unfold resolveEndpoint
  cases hl : List.lookup (pyRound 5 lon, pyRound 5 lat) st.coordMap with
  | some id => simp [hl]
  | none =>
    cases hj : find_junction_node hav lon lat en with
    | some jd => simp [hl, hj]
    | none => simp [hl, hj]

theorem sameEdgePair_comm (e e0 : MEdge) :
    sameEdgePair e e0 ↔ sameEdgePair e0 e := by
  unfold sameEdgePair
  constructor
  · rintro (⟨a, b⟩ | ⟨a, b⟩)
    · exact Or.inl ⟨a.symm, b.symm⟩
    · exact Or.inr ⟨b.symm, a.symm⟩
  · rintro (⟨a, b⟩ | ⟨a, b⟩)
    · exact Or.inl ⟨a.symm, b.symm⟩
    · exact Or.inr ⟨b.symm, a.symm⟩

theorem sameEdgePair_mk_iff (sid tid : String) (w1 w2 : ℚ) (y1 y2 : ℤ)
    (s1 s2 : String) (x : MEdge) :
    ((x.source == sid && x.target == tid) ||
     (x.source == tid && x.target == sid)) = true ↔
    sameEdgePair ⟨sid, tid, w1, w2, y1, y2, s1, s2⟩ x := by
  simp only [Bool.or_eq_true, Bool.and_eq_true, beq_iff_eq, sameEdgePair]
  constructor
  · rintro (⟨a, b⟩ | ⟨a, b⟩)
    · exact Or.inl ⟨a.symm, b.symm⟩
    · exact Or.inr ⟨b.symm, a.symm⟩
  · rintro (⟨a, b⟩ | ⟨a, b⟩)
    · exact Or.inl ⟨a.symm, b.symm⟩
    · exact Or.inr ⟨b.symm, a.symm⟩

theorem integrateStep_inv (hav : ℚ → ℚ → ℚ → ℚ → ℚ) (en : List MNode)
    (ee : List MEdge) (st : IntState) (t : NrwnTrack)
    (h1 : ∀ e ∈ st.newEdges, ∀ e0 ∈ ee, ¬ sameEdgePair e e0)
    (h2 : st.newEdges.Pairwise (fun a b => ¬ sameEdgePair a b)) :
    (∀ e ∈ (integrateStep hav en ee st t).newEdges, ∀ e0 ∈ ee,
        ¬ sameEdgePair e e0) ∧
    (integrateStep hav en ee st t).newEdges.Pairwise
      (fun a b => ¬ sameEdgePair a b) := by
  cases hc : t.coordinates with
  | nil => simp only [integrateStep, hc]; exact ⟨h1, h2⟩
  | cons c0 rest =>
    cases rest with
    | nil => simp only [integrateStep, hc]; exact ⟨h1, h2⟩
    | cons c1 rest2 =>
      simp only [integrateStep, hc]
      split
      · simp only [resolveEndpoint_newEdges]
        exact ⟨h1, h2⟩
      · split
        · simp only [resolveEndpoint_newEdges]
          exact ⟨h1, h2⟩
        · rename_i hne hany
          simp only [resolveEndpoint_newEdges] at hany ⊢
          rw [List.any_eq_true] at hany
          push_neg at hany
          constructor
          · intro e he e0 he0
            simp only [List.mem_append, List.mem_singleton] at he
            rcases he with he | he
            · exact h1 e he e0 he0
            · subst he
              intro hpair
              exact hany e0 (List.mem_append.2 (Or.inl he0))
                ((sameEdgePair_mk_iff _ _ _ _ _ _ _ _ e0).2 hpair)
          · rw [List.pairwise_append]
            refine ⟨h2, List.pairwise_singleton _ _, ?_⟩
            intro a ha b hb
            simp only [List.mem_singleton] at hb
            subst hb
            intro hpair
            exact hany a (List.mem_append.2 (Or.inr ha))
              ((sameEdgePair_mk_iff _ _ _ _ _ _ _ _ a).2
                ((sameEdgePair_comm _ _).2 hpair))

theorem integrate_fold_inv (hav : ℚ → ℚ → ℚ → ℚ → ℚ) (en : List MNode)
    (ee : List MEdge) :
    ∀ (l : List NrwnTrack) (st : IntState),
      (∀ e ∈ st.newEdges, ∀ e0 ∈ ee, ¬ sameEdgePair e e0) →
      st.newEdges.Pairwise (fun a b => ¬ sameEdgePair a b) →
      (∀ e ∈ (l.foldl (integrateStep hav en ee) st).newEdges, ∀ e0 ∈ ee,
          ¬ sameEdgePair e e0) ∧
      (l.foldl (integrateStep hav en ee) st).newEdges.Pairwise
        (fun a b => ¬ sameEdgePair a b) := by
  intro l
  induction l with
  | nil => intro st h1 h2; exact ⟨h1, h2⟩
  | cons t l ih =>
    intro st h1 h2
    simp only [List.foldl_cons]
    obtain ⟨h1s, h2s⟩ := integrateStep_inv hav en ee st t h1 h2
    exact ih (integrateStep hav en ee st t) h1s h2s

/-- Claim C7: a merge preserves every edge (and node) of the pre-merge
graph unchanged — the rewritten artifact holds them as an unchanged prefix
— and no integrated NRWN edge joins a node pair that already has an edge,
neither a pre-merge pair nor an earlier new pair, regardless of length. -/
theorem c7_merge_preserves_original_edges (hav : ℚ → ℚ → ℚ → ℚ → ℚ)
    (merged : List NrwnTrack) (network : MNetwork) (td : MTracksData) :
    (update_network_files network td (integrate_nrwn_tracks hav merged network).1
        (integrate_nrwn_tracks hav merged network).2.1
        (integrate_nrwn_tracks hav merged network).2.2).1.edges =
      network.edges ++ (integrate_nrwn_tracks hav merged network).2.1 ∧
    (update_network_files network td (integrate_nrwn_tracks hav merged network).1
        (integrate_nrwn_tracks hav merged network).2.1
        (integrate_nrwn_tracks hav merged network).2.2).1.nodes =
      network.nodes ++ (integrate_nrwn_tracks hav merged network).1 ∧
    (∀ e ∈ (integrate_nrwn_tracks hav merged network).2.1,
        ∀ e0 ∈ network.edges, ¬ sameEdgePair e e0) ∧
    (integrate_nrwn_tracks hav merged network).2.1.Pairwise
      (fun a b => ¬ sameEdgePair a b) := by
  refine ⟨rfl, rfl, ?_, ?_⟩
  · exact (integrate_fold_inv hav network.nodes network.edges merged _
      (by simp) (by simp)).1
  · exact (integrate_fold_inv hav network.nodes network.edges merged _
      (by simp) (by simp)).2

theorem classifyComponents_no_originals (comps : List (List String)) :
    classifyComponents [] comps = (none, comps) := by
  have key : ∀ (l : List (List String)) (s : Option (List String))
      (acc : List (List String)),
      l.foldl
        (fun (st : Option (List String) × List (List String)) comp =>
          if comp.any (fun n => decide (n ∈ ([] : List String))) then
            match st.1 with
            | none => (some comp, st.2)
            | some m =>
              if comp.length > m.length then (some comp, st.2 ++ [m])
              else (st.1, st.2 ++ [comp])
          else (st.1, st.2 ++ [comp]))
        (s, acc) = (s, acc ++ l) := by
    intro l
    induction l with
    | nil => intro s acc; simp
    | cons c l ih =>
      intro s acc
      simp only [List.foldl_cons]
      have hany : (c.any (fun n => decide (n ∈ ([] : List String)))) = false := by
        simp
      rw [hany]
      simp only [Bool.false_eq_true, if_false]
      rw [ih]
      simp
  unfold classifyComponents
  rw [key]
  simp

theorem connect_floating_no_main (hav : ℚ → ℚ → ℚ → ℚ → ℚ)
    (network : MNetwork) (nn : List MNode) (ne : List MEdge)
    (h : network.nodes = []) :
    connect_floating_subgraphs hav network nn ne = ([], []) := by
  unfold connect_floating_subgraphs
  rw [h]
  simp [classifyComponents_no_originals]

/-- Claim C8 (amended): when the pre-merge graph is empty, no main
component exists, so the merger attaches no virtual edges (after printing a
warning, not an error), and — provided integration produced any new edge —
it still rewrites both artifacts with the integrated data, exiting with
code 0; the artifacts are left unchanged only when integration produced no
new edges. -/
theorem c8_empty_premerge_behavior (hav : ℚ → ℚ → ℚ → ℚ → ℚ)
    (merged : List NrwnTrack) (network : MNetwork) (td : MTracksData)
    (hnodes : network.nodes = []) :
    connect_floating_subgraphs hav network
      (integrate_nrwn_tracks hav merged network).1
      (integrate_nrwn_tracks hav merged network).2.1 = ([], []) ∧
    ((integrate_nrwn_tracks hav merged network).2.1 = [] →
      mergerRun hav merged network td = (0, none)) ∧
    ((integrate_nrwn_tracks hav merged network).2.1 ≠ [] →
      mergerRun hav merged network td =
        (0, some (update_network_files network td
            (integrate_nrwn_tracks hav merged network).1
            (integrate_nrwn_tracks hav merged network).2.1
            (integrate_nrwn_tracks hav merged network).2.2))) := by
  have hconn := connect_floating_no_main hav network
    (integrate_nrwn_tracks hav merged network).1
    (integrate_nrwn_tracks hav merged network).2.1 hnodes
  refine ⟨hconn, ?_, ?_⟩
  · intro h
    simp [mergerRun, h]
  · intro h
    simp [mergerRun, h, hconn]

theorem c8_empty_premerge_behavior_witness :
    connect_floating_subgraphs havZero mergerEmptyNet
      (integrate_nrwn_tracks havZero [mergerOneTrack] mergerEmptyNet).1
      (integrate_nrwn_tracks havZero [mergerOneTrack] mergerEmptyNet).2.1 =
      ([], []) :=
  (c8_empty_premerge_behavior havZero [mergerOneTrack] mergerEmptyNet
    mergerEmptyTracks rfl).1

theorem integrate_one_track_eval :
    integrate_nrwn_tracks havZero [mergerOneTrack] mergerEmptyNet =
      ([⟨"n500", 0, 0, 0, 0⟩, ⟨"n501", 0, 1, 0, 0⟩],
       [⟨"n500", "n501", 0, 0, 0, 0, "LMR", "LMR"⟩],
       [⟨"n500", "n501", [(0, 0), (1, 0)], 0, 0, "LMR", 0⟩]) := by
  have hp0 : pyRound 5 (0 : ℚ) = 0 := by simpa using pyRound_intCast (α := ℚ) 5 0
  have hp1 : pyRound 5 (1 : ℚ) = 1 := by simpa using pyRound_intCast (α := ℚ) 5 1
  have h10 : pyRound 1 (0 : ℚ) = 0 := by simpa using pyRound_intCast (α := ℚ) 1 0
  have h20 : pyRound 2 (0 : ℚ) = 0 := by simpa using pyRound_intCast (α := ℚ) 2 0
  have hid5 : ("n" ++ toString (500 : ℕ)) = "n500" := by decide
  have hid6 : ("n" ++ toString (501 : ℕ)) = "n501" := by decide
  unfold integrate_nrwn_tracks mergerEmptyNet mergerOneTrack nextNodeNum
    integrateStep resolveEndpoint find_junction_node calculate_track_length
    trackLenAux assocSet havZero
  have hbeq : (@BEq.beq (ℚ × ℚ) instBEqOfDecidableEq ((1 : ℚ), (0 : ℚ))
      (0 : ℚ × ℚ)) = false := by decide
  have hne : ("n500" : String) ≠ "n501" := by decide
  norm_num [hp0, hp1, h10, h20, hid5, hid6, List.lookup, hbeq, hne,
    Prod.mk.injEq, Prod.ext_iff]
  norm_num [hbeq, hne, trackLenAux, h10, h20, List.lookup]
  decide

/-- Counterexample to claim C8 as written: on an empty pre-merge network the
merger does not abort without touching the artifacts.  It prints a warning
(no virtual edges are attached, `connect_floating_subgraphs` returns
`([], [])`), exits with code 0, and still rewrites both output files — the
tracks artifact goes from 0 recorded tracks to 1. -/
theorem c8_empty_premerge_still_writes :
    mergerEmptyNet.nodes = [] ∧ mergerEmptyNet.edges = [] ∧
    connect_floating_subgraphs havZero mergerEmptyNet
      (integrate_nrwn_tracks havZero [mergerOneTrack] mergerEmptyNet).1
      (integrate_nrwn_tracks havZero [mergerOneTrack] mergerEmptyNet).2.1
      = ([], []) ∧
    (mergerRun havZero [mergerOneTrack] mergerEmptyNet mergerEmptyTracks).1
      = 0 ∧
    ((mergerRun havZero [mergerOneTrack] mergerEmptyNet
        mergerEmptyTracks).2.map (fun out => out.2.track_count)) = some 1 ∧
    mergerEmptyTracks.track_count = 0 := by
  have hc := connect_floating_no_main havZero mergerEmptyNet
    [⟨"n500", 0, 0, 0, 0⟩, ⟨"n501", 0, 1, 0, 0⟩]
    [⟨"n500", "n501", 0, 0, 0, 0, "LMR", "LMR"⟩] rfl
  refine ⟨rfl, rfl, ?_, ?_, ?_, rfl⟩ <;>
    simp [mergerRun, integrate_one_track_eval, hc, update_network_files,
      mergerEmptyTracks]
